import Mathlib

/-!
Verification development for the PyThor ODIN flashing client
(`pythor/pythor.py`).

The embedding below translates the protocol engine into Lean:

* the 1024-byte command-frame codec (`bytearray(1024)` plus
  `struct.pack_into("i", buf, offset, data)`) becomes `Buf` and `pack`;
* the PIT binary codec (`parse_pit`) becomes `parse_pit` over byte lists,
  with Python's `bytes.decode("utf-8")` modelled by `utf8Decode` and the
  `.strip().strip("\x20").strip("\x00")` chain modelled by `trimField`;
* the stateful session object becomes the `Sess` record, with device reads
  supplied by an environment `Nat → RdRes` (one entry per `self.read()`
  call, in order) and device writes reported as a trace of byte lists;
* the flash sequence planning of `PyThor.flash` becomes `flashPlanCode`,
  including the loop's conditionally-assigned local variable `last`,
  modelled as an `Option Bool` that starts out unbound (`none`); reading it
  while unbound (Python's `UnboundLocalError`) makes the planner return
  `none`.

Machine integers are modelled as `Nat`/`Int` with explicit reduction
modulo `2 ^ 32` where the 4-byte little-endian encoding matters.
-/

namespace PyThor

/-! ### Little-endian 32-bit integers -/

/-- Unsigned little-endian 32-bit decode of (the first four bytes of) a byte
list, as in `struct.unpack("<I", ...)`. Missing bytes read as zero. -/
def u32LE (bs : List Nat) : Nat :=
  bs.getD 0 0 + 256 * bs.getD 1 0 + 65536 * bs.getD 2 0 + 16777216 * bs.getD 3 0

/-- The unsigned 32-bit pattern of a signed integer, as laid down in memory by
`struct.pack_into("i", ...)`. -/
def u32ofInt (d : Int) : Nat := (d % 4294967296).toNat

/-- Reinterpret an unsigned 32-bit value as a signed one (two's complement),
as in `struct.unpack("i", ...)`. -/
def i32ofU32 (u : Nat) : Int :=
  if u < 2147483648 then (u : Int) else (u : Int) - 4294967296

/-- Signed little-endian 32-bit decode of four bytes. -/
def i32ofBytes (bs : List Nat) : Int := i32ofU32 (u32LE bs)

/-- The value range accepted by `struct.pack_into("i", ...)`. -/
def i32range (d : Int) : Prop := -2147483648 ≤ d ∧ d < 2147483648

/-! ### UTF-8 decoding (`bytes.decode("utf-8")`) -/

/-- Is `b` a UTF-8 continuation byte? -/
def isCont (b : Nat) : Bool := decide (0x80 ≤ b ∧ b ≤ 0xBF)

/-- UTF-8 decoder with explicit fuel (the fuel is only a termination device;
`utf8Decode` supplies enough for the whole input). Returns `none` exactly
when CPython's strict `bytes.decode("utf-8")` raises `UnicodeDecodeError`:
stray continuation bytes, truncated sequences, overlong encodings and
surrogate code points are rejected. -/
def utf8DecodeFuel : Nat → List Nat → Option (List Char)
  | _, [] => some []
  | 0, _ :: _ => none
  | fuel + 1, b1 :: rest =>
    if b1 < 0x80 then
      (utf8DecodeFuel fuel rest).map (fun cs => Char.ofNat b1 :: cs)
    else if 0xC2 ≤ b1 ∧ b1 ≤ 0xDF then
      match rest with
      | b2 :: rest2 =>
        if isCont b2 then
          (utf8DecodeFuel fuel rest2).map
            (fun cs => Char.ofNat ((b1 - 0xC0) * 64 + (b2 - 0x80)) :: cs)
        else none
      | [] => none
    else if 0xE0 ≤ b1 ∧ b1 ≤ 0xEF then
      match rest with
      | b2 :: b3 :: rest3 =>
        if (if b1 = 0xE0 then decide (0xA0 ≤ b2 ∧ b2 ≤ 0xBF)
            else if b1 = 0xED then decide (0x80 ≤ b2 ∧ b2 ≤ 0x9F)
            else isCont b2) && isCont b3 then
          (utf8DecodeFuel fuel rest3).map
            (fun cs =>
              Char.ofNat ((b1 - 0xE0) * 4096 + (b2 - 0x80) * 64 + (b3 - 0x80)) :: cs)
        else none
      | _ => none
    else if 0xF0 ≤ b1 ∧ b1 ≤ 0xF4 then
      match rest with
      | b2 :: b3 :: b4 :: rest4 =>
        if (if b1 = 0xF0 then decide (0x90 ≤ b2 ∧ b2 ≤ 0xBF)
            else if b1 = 0xF4 then decide (0x80 ≤ b2 ∧ b2 ≤ 0x8F)
            else isCont b2) && isCont b3 && isCont b4 then
          (utf8DecodeFuel fuel rest4).map
            (fun cs =>
              Char.ofNat ((b1 - 0xF0) * 262144 + (b2 - 0x80) * 4096 +
                (b3 - 0x80) * 64 + (b4 - 0x80)) :: cs)
        else none
      | _ => none
    else none

/-- `bs.decode("utf-8")`: `some` of the decoded characters, or `none` on
`UnicodeDecodeError`. -/
def utf8Decode (bs : List Nat) : Option (List Char) :=
  utf8DecodeFuel bs.length bs

/-! ### Python string trimming (`.strip().strip("\x20").strip("\x00")`) -/

/-- The NUL character. -/
def nulChar : Char := Char.ofNat 0

/-- Python `str.strip()` default whitespace (the ASCII portion, which is all
that NUL/space-padded PIT fields can contain at their ends). -/
def pyIsWs (c : Char) : Bool :=
  c == ' ' || c == Char.ofNat 9 || c == Char.ofNat 10 || c == Char.ofNat 13 ||
    c == Char.ofNat 11 || c == Char.ofNat 12

/-- The character set of `.strip("\x20")`. -/
def isSpaceChar (c : Char) : Bool := c == ' '

/-- The character set of `.strip("\x00")`. -/
def isNulChar (c : Char) : Bool := c == nulChar

/-- Python `str.strip(chars)`: remove characters satisfying `p` from both
ends of the string. -/
def stripEnds (p : Char → Bool) (l : List Char) : List Char :=
  ((l.dropWhile p).reverse.dropWhile p).reverse

/-- The trimming chain applied to every PIT string field in `parse_pit`:
`.strip()` then `.strip("\x20")` then `.strip("\x00")`, in that order. -/
def trimField (s : List Char) : List Char :=
  stripEnds isNulChar (stripEnds isSpaceChar (stripEnds pyIsWs s))

/-- A 32-byte PIT string field: `reader.read(32).decode("utf-8")` followed by
the trimming chain. `none` on `UnicodeDecodeError`. -/
def fieldString (bs : List Nat) : Option (List Char) :=
  (utf8Decode (bs.take 32)).map trimField

/-! ### Command buffers (`bytearray(n)` and `PyThor.pack`) -/

/-- A mutable byte buffer: its size and the byte stored at each index. -/
structure Buf where
  size : Nat
  byteAt : Nat → Nat

/-- `bytearray(n)`: `n` zero bytes. -/
def bufNew (n : Nat) : Buf := ⟨n, fun _ => 0⟩

/-- `PyThor.pack`: `struct.pack_into("i", buf, offset, data)` — write the
4-byte little-endian encoding of `data` at `offset`. -/
def pack (data : Int) (offset : Nat) (b : Buf) : Buf :=
  ⟨b.size, fun k =>
    if offset ≤ k ∧ k < offset + 4 then u32ofInt data / 256 ^ (k - offset) % 256
    else b.byteAt k⟩

/-- Read back an unsigned little-endian 32-bit integer at `off`. -/
def readU32 (b : Buf) (off : Nat) : Nat :=
  b.byteAt off + 256 * b.byteAt (off + 1) + 65536 * b.byteAt (off + 2) +
    16777216 * b.byteAt (off + 3)

/-- Read back a signed little-endian 32-bit integer at `off`. -/
def readI32 (b : Buf) (off : Nat) : Int := i32ofU32 (readU32 b off)

/-- Materialise a buffer as the list of its bytes. -/
def Buf.toList (b : Buf) : List Nat := (List.range b.size).map b.byteAt

/-- All bytes of `b` from index `e` on are zero. -/
def zeroOutside (b : Buf) (e : Nat) : Prop := ∀ k, e ≤ k → b.byteAt k = 0

/-! ### The command frames built in `pythor.py`

Each definition mirrors one `buf = bytearray(1024)` block, with the `pack`
calls applied in source order. -/

/-- `begin_session` version probe: `{0x64, 0x00, 0xFFFF}`. -/
def probeFrame : Buf := pack 0xFFFF 8 (pack 0x00 4 (pack 0x64 0 (bufNew 1024)))

/-- `begin_session` packet-size announcement: `{0x64, 0x05, fps}`. -/
def packetSizeFrame (fps : Int) : Buf :=
  pack fps 8 (pack 0x05 4 (pack 0x64 0 (bufNew 1024)))

/-- `send_total_bytes`: `{0x64, 0x02, size}`. -/
def totalBytesFrame (size : Int) : Buf :=
  pack size 8 (pack 0x02 4 (pack 0x64 0 (bufNew 1024)))

/-- `get_pit` dump request: `{0x65, 0x01}`. -/
def pitInitFrame : Buf := pack 0x01 4 (pack 0x65 0 (bufNew 1024))

/-- `get_pit` block request: `{0x65, 0x02, i}`. -/
def pitBlockFrame (i : Int) : Buf :=
  pack i 8 (pack 0x02 4 (pack 0x65 0 (bufNew 1024)))

/-- `get_pit` finish: `{0x65, 0x03}`. -/
def pitEndFrame : Buf := pack 0x03 4 (pack 0x65 0 (bufNew 1024))

/-- `flash` begin: `{0x66, 0x00}`. -/
def flashBeginFrame : Buf := pack 0x00 4 (pack 0x66 0 (bufNew 1024))

/-- `flash` sequence header: `{0x66, 0x02, aligned_size}`. -/
def seqHeaderFrame (alignedSizeArg : Int) : Buf :=
  pack alignedSizeArg 8 (pack 0x02 4 (pack 0x66 0 (bufNew 1024)))

/-- `end_session`: `{0x67, 0x00}`. -/
def endSessionFrame : Buf := pack 0x00 4 (pack 0x67 0 (bufNew 1024))

/-- `reboot`: `{0x67, 0x01}`. -/
def rebootFrame : Buf := pack 0x01 4 (pack 0x67 0 (bufNew 1024))

/-- `shutdown`: `{0x67, 0x03}`. -/
def shutdownFrame : Buf := pack 0x03 4 (pack 0x67 0 (bufNew 1024))

/-- `factory_reset`: `{0x64, 0x07}`. -/
def factoryResetFrame : Buf := pack 0x07 4 (pack 0x64 0 (bufNew 1024))

/-- `enable_tflash`: `{0x64, 0x08}`. -/
def tflashFrame : Buf := pack 0x08 4 (pack 0x64 0 (bufNew 1024))

/-- A raw image packet of the flash loop: `buf = bytearray(flashpacketsize)`
filled by `stream.readinto(buf)`; a short read at EOF leaves trailing
zeros. -/
def imagePacket (fps : Nat) (chunk : List Nat) : Buf :=
  ⟨fps, fun k => chunk.getD k 0⟩

/-- The 4-byte ASCII `"ODIN"` handshake literal. -/
def odinBytes : List Nat := [0x4F, 0x44, 0x49, 0x4E]

/-- The expected ASCII `"LOKE"` handshake reply, decoded. -/
def lokeChars : List Char := ['L', 'O', 'K', 'E']

/-! ### PIT entries and the partition dictionary -/

/-- One decoded 132-byte PIT entry (the dict built per entry in
`parse_pit`). -/
structure PitEntry where
  binaryType : Int
  deviceType : Int
  partitionID : Int
  attributes : Int
  updateAttributes : Int
  blockSize : Int
  blockCount : Int
  fileOffset : Int
  fileSize : Int
  partitionName : List Char
  fileName : List Char
  deltaName : List Char
deriving DecidableEq

/-- `self.partitions`: a Python dict from partition name to entry, modelled
as an insertion-ordered association list with unique keys. -/
abbrev PMap := List (List Char × PitEntry)

/-- Python dict assignment `d[k] = v`: overwrite in place if the key exists,
otherwise append. -/
def dictInsert : PMap → List Char → PitEntry → PMap
  | [], k, v => [(k, v)]
  | (k', v') :: t, k, v =>
    if k' = k then (k, v) :: t else (k', v') :: dictInsert t k v

/-- Python dict lookup `d[k]`. -/
def lookupP : PMap → List Char → Option PitEntry
  | [], _ => none
  | (k', v) :: t, k => if k' = k then some v else lookupP t k

/-- The error taxonomy of the client (each constructor tags one of the
distinguishable exceptions the source raises). -/
inductive Err where
  | deviceNotFound
  | noSession
  | sessionStart
  | handshakeMismatch
  | magicMismatch
  | protocolError
  | timeoutErr
deriving DecidableEq

/-- `struct.unpack("i", reader.read(4))`: exactly four bytes or
`struct.error`. -/
def takeExact4 (bs : List Nat) : Option (Int × List Nat) :=
  if 4 ≤ bs.length then some (i32ofBytes (bs.take 4), bs.drop 4) else none

/-- One 132-byte PIT entry as read in the `parse_pit` loop; `none` when a
`struct.error` or `UnicodeDecodeError` is raised mid-entry. -/
def parseEntry (bs : List Nat) : Option (PitEntry × List Nat) := do
  let (binaryType, bs) ← takeExact4 bs
  let (deviceType, bs) ← takeExact4 bs
  let (partitionID, bs) ← takeExact4 bs
  let (attributes, bs) ← takeExact4 bs
  let (updateAttributes, bs) ← takeExact4 bs
  let (blockSize, bs) ← takeExact4 bs
  let (blockCount, bs) ← takeExact4 bs
  let (fileOffset, bs) ← takeExact4 bs
  let (fileSize, bs) ← takeExact4 bs
  let pName ← fieldString bs
  let bs := bs.drop 32
  let fName ← fieldString bs
  let bs := bs.drop 32
  let dName ← fieldString bs
  let bs := bs.drop 32
  some (⟨binaryType, deviceType, partitionID, attributes, updateAttributes,
    blockSize, blockCount, fileOffset, fileSize, pName, fName, dName⟩, bs)

/-- The entry loop of `parse_pit`: `entries` iterations, each inserting into
the partitions dict; a failed entry raises after the earlier inserts have
happened, so the partially updated dict is kept alongside the error. -/
def parsePitLoop : Nat → List Nat → PMap → PMap × Option Err
  | 0, _, ps => (ps, none)
  | n + 1, bs, ps =>
    match parseEntry bs with
    | none => (ps, some Err.protocolError)
    | some (e, rest) => parsePitLoop n rest (dictInsert ps e.partitionName e)

/-- The header phase of `parse_pit`: magic, entry count, 8 unknown bytes,
8 project bytes, 4 reserved bytes. Returns the entry count and the entry
bytes, or the error raised. -/
def pitHeader (pit : List Nat) : Except Err (Nat × List Nat) :=
  if pit.length < 4 then .error .protocolError
  else if u32LE (pit.take 4) ≠ 0x12349876 then .error .magicMismatch
  else
    let r1 := pit.drop 4
    if r1.length < 4 then .error .protocolError
    else
      let entries := u32LE (r1.take 4)
      let r2 := r1.drop 4
      match utf8Decode (r2.take 8) with
      | none => .error .protocolError
      | some _ =>
        match utf8Decode ((r2.drop 8).take 8) with
        | none => .error .protocolError
        | some _ =>
          let r3 := r2.drop 16
          if r3.length < 4 then .error .protocolError
          else .ok (entries, r3.drop 4)

/-- `PyThor.parse_pit` acting on a partitions dict: returns the (possibly
partially) updated dict together with the exception raised, if any. -/
def parse_pit (ps : PMap) (pit : List Nat) : PMap × Option Err :=
  match pitHeader pit with
  | .error e => (ps, some e)
  | .ok (entries, body) => parsePitLoop entries body ps

/-! ### Session state and I/O primitives -/

/-- The result of one `self.dev.read(...)` call, supplied by the
environment: either a USB timeout or the bytes returned. -/
inductive RdRes where
  | timeout
  | bytes (bs : List Nat)
deriving DecidableEq

/-- The mutable state of a `PyThor` instance. `dev` is the truthiness of the
USB handle (`self.dev is not None`). -/
structure Sess where
  dev : Bool
  session_started : Bool
  t_flash_enabled : Bool
  flashpacketsize : Nat
  sequencesize : Nat
  partitions : PMap
deriving DecidableEq

/-- `PyThor.write`: gated on `self.dev and self.session_started`; on success
the data is sent (reported as a singleton trace), otherwise `ValueError`
(`NoSession`) is raised and nothing is transferred. -/
def writeOp (s : Sess) (data : List Nat) : Sess × List (List Nat) × Except Err Unit :=
  if s.dev && s.session_started then (s, [data], .ok ())
  else (s, [], .error .noSession)

/-- `PyThor.read`: same gate; on success returns the environment-supplied
bytes or propagates the USB timeout. -/
def readOp (s : Sess) (r : RdRes) : Sess × Except Err (List Nat) :=
  if s.dev && s.session_started then
    match r with
    | .timeout => (s, .error .timeoutErr)
    | .bytes bs => (s, .ok bs)
  else (s, .error .noSession)

/-- `PyThor.end_session`: send `{0x67, 0x00}`, read one ack. The session
state is never modified. -/
def end_session (s : Sess) (env : Nat → RdRes) : Sess × Except Err Unit :=
  if s.dev && s.session_started then
    match env 0 with
    | .timeout => (s, .error .timeoutErr)
    | .bytes _ => (s, .ok ())
  else (s, .error .noSession)

/-- `PyThor.reboot`: `end_session` first, then `{0x67, 0x01}` and one ack;
on success the handle is dropped (`self.dev = None`) and the partitions
dict cleared. `session_started` is left untouched. -/
def reboot (s : Sess) (env : Nat → RdRes) : Sess × Except Err Unit :=
  match end_session s env with
  | (s1, .error e) => (s1, .error e)
  | (s1, .ok _) =>
    if s1.dev && s1.session_started then
      match env 1 with
      | .timeout => (s1, .error .timeoutErr)
      | .bytes _ => ({ s1 with dev := false, partitions := [] }, .ok ())
    else (s1, .error .noSession)

/-- `PyThor.shutdown`: `{0x67, 0x03}` and one ack; on success the handle is
dropped and the partitions dict cleared, `session_started` untouched. -/
def shutdown (s : Sess) (env : Nat → RdRes) : Sess × Except Err Unit :=
  if s.dev && s.session_started then
    match env 0 with
    | .timeout => (s, .error .timeoutErr)
    | .bytes _ => ({ s with dev := false, partitions := [] }, .ok ())
  else (s, .error .noSession)

/-- The tail of `begin_session` shared by the resume and non-resume paths:
version probe, version-dependent sizing, packet-size announcement. `n` is
the index of the next environment read; `tr` the write trace so far. -/
def beginSessionTail (s : Sess) (tr : List (List Nat)) (n : Nat) (env : Nat → RdRes) :
    Sess × List (List Nat) × Except Err Unit :=
  if s.dev && s.session_started then
    match env n with
    | .timeout => (s, tr ++ [probeFrame.toList], .error .timeoutErr)
    | .bytes ret =>
      if ret.length < 7 then (s, tr ++ [probeFrame.toList], .error .protocolError)
      else
        let version := ret.getD 6 0
        let s2 :=
          if version = 0 ∨ version = 1 then
            { s with flashpacketsize := 131072, sequencesize := 240 }
          else
            { s with flashpacketsize := 1048576, sequencesize := 30 }
        match env (n + 1) with
        | .timeout =>
          (s2, tr ++ [probeFrame.toList, (packetSizeFrame (s2.flashpacketsize : Int)).toList],
            .error .timeoutErr)
        | .bytes _ =>
          (s2, tr ++ [probeFrame.toList, (packetSizeFrame (s2.flashpacketsize : Int)).toList],
            .ok ())
  else (s, tr, .error .noSession)

/-- `PyThor.begin_session`: sets `session_started = True` up front, then (if
not resuming) writes the `"ODIN"` literal and checks the `"LOKE"` reply —
rolling the flag back only on the `USBTimeoutError` branch — and finally
runs the version probe and packet-size announcement. -/
def begin_session (s : Sess) (resume : Bool) (env : Nat → RdRes) :
    Sess × List (List Nat) × Except Err Unit :=
  let s1 := { s with session_started := true }
  if resume then beginSessionTail s1 [] 0 env
  else
    if s1.dev && s1.session_started then
      match env 0 with
      | .timeout =>
        ({ s1 with session_started := false }, [odinBytes], .error .sessionStart)
      | .bytes ret =>
        match utf8Decode ret with
        | none => (s1, [odinBytes], .error .protocolError)
        | some cs =>
          if cs = lokeChars then beginSessionTail s1 [odinBytes] 1 env
          else (s1, [odinBytes], .error .handshakeMismatch)
    else (s1, [], .error .noSession)

/-- Python slice assignment `buf[off : off + len(ret)] = ret`. -/
def splice (buf : List Nat) (off : Nat) (ret : List Nat) : List Nat :=
  buf.take off ++ ret ++ buf.drop (off + ret.length)

/-- The block loop of `get_pit`: for each remaining block, read a reply and
splice it into the PIT buffer at `i * 500`. Environment reads start at
index 1 (index 0 was the dump-request ack). -/
def getPitBlocks (env : Nat → RdRes) : Nat → Nat → List Nat → Except Err (List Nat)
  | 0, _, buf => .ok buf
  | rem + 1, i, buf =>
    match env (1 + i) with
    | .timeout => .error .timeoutErr
    | .bytes ret => getPitBlocks env rem (i + 1) (splice buf (i * 500) ret)

/-- `PyThor.get_pit`: request the dump, fetch `ceil(size / 500)` blocks,
swallow the ZLP-sync read, send the finish frame, read the final ack, then
parse into the partitions dict and return the raw PIT bytes. -/
def get_pit (s : Sess) (env : Nat → RdRes) : Sess × Except Err (List Nat) :=
  if s.dev && s.session_started then
    match env 0 with
    | .timeout => (s, .error .timeoutErr)
    | .bytes ret =>
      if ret.length < 8 then (s, .error .protocolError)
      else
        let size := u32LE ((ret.drop 4).take 4)
        let blocks := (size + 499) / 500
        match getPitBlocks env blocks 0 (List.replicate size 0) with
        | .error e => (s, .error e)
        | .ok pitbuf =>
          match env (1 + blocks + 1) with
          | .timeout => (s, .error .timeoutErr)
          | .bytes _ =>
            match parse_pit s.partitions pitbuf with
            | (ps, some e) => ({ s with partitions := ps }, .error e)
            | (ps, none) => ({ s with partitions := ps }, .ok pitbuf)
  else (s, .error .noSession)

/-! ### Flash sequence planning -/

/-- The `aligned_size` computation of the flash loop: pad `real_size` up to
the next multiple of `flashpacketsize`. -/
def alignedSize (real_size fps : Nat) : Nat :=
  if real_size % fps ≠ 0 then real_size + (fps - real_size % fps) else real_size

/-- The flash sequence loop as written: `lastVar` models the Python local
`last`, which is only ever assigned inside `if i + 1 == sequences`; it
starts unbound (`none`), and reading it while unbound — Python's
`UnboundLocalError` — aborts the whole plan with `none`. On success the
list pairs each sequence's `real_size` with its `last` flag. -/
def flashLoopCode (sequence last_sequence sequences : Nat) :
    Nat → Nat → Option Bool → Option (List (Nat × Bool))
  | 0, _, _ => some []
  | rem + 1, i, lastVar =>
    let lastVar := if i + 1 = sequences then some true else lastVar
    match lastVar with
    | none => none
    | some l =>
      let real_size := if l then last_sequence else sequence
      (flashLoopCode sequence last_sequence sequences rem (i + 1) (some l)).map
        (fun rest => (real_size, l) :: rest)

/-- The sequence planning of `PyThor.flash` for an image of `length` bytes:
`sequence = flashpacketsize * sequencesize`, floor/mod split, then the
per-sequence loop (including the unbound-`last` behaviour). -/
def flashPlanCode (length fps ss : Nat) : Option (List (Nat × Bool)) :=
  let sequence := fps * ss
  let sequences0 := length / sequence
  let lastSeq0 := length % sequence
  let sequences := if lastSeq0 ≠ 0 then sequences0 + 1 else sequences0
  let last_sequence := if lastSeq0 ≠ 0 then lastSeq0 else sequence
  flashLoopCode sequence last_sequence sequences sequences 0 none

/-- The per-sequence finalization frame of the flash loop: the modem
sub-protocol when the partition's `BinaryType` is 1, the regular one
otherwise, with the `pack` calls in source order. -/
def finalizeFrame (e : PitEntry) (real_size : Int) (last efs_clear upd_bl : Bool) : Buf :=
  if e.binaryType = 1 then
    pack (if last then 1 else 0) 24 (pack e.deviceType 20 (pack e.binaryType 16
      (pack real_size 12 (pack 0x01 8 (pack 0x03 4 (pack 0x66 0 (bufNew 1024)))))))
  else
    pack (if upd_bl then 1 else 0) 36 (pack (if efs_clear then 1 else 0) 32
      (pack (if last then 1 else 0) 28 (pack e.partitionID 24 (pack e.deviceType 20
        (pack e.binaryType 16 (pack real_size 12 (pack 0x00 8 (pack 0x03 4
          (pack 0x66 0 (bufNew 1024))))))))))

/-- A well-formed outbound command frame: exactly 1024 bytes, zero outside
the packed region `[0, e)`. -/
def frameOk (b : Buf) (e : Nat) : Prop := b.size = 1024 ∧ zeroOutside b e

/-! ## Lemmas about the frame codec -/

theorem byteAt_pack_out (d : Int) (off : Nat) (b : Buf) (k : Nat)
    (h : k < off ∨ off + 4 ≤ k) : (pack d off b).byteAt k = b.byteAt k := by
  show (if off ≤ k ∧ k < off + 4 then u32ofInt d / 256 ^ (k - off) % 256
    else b.byteAt k) = b.byteAt k
  rw [if_neg (by omega)]

theorem byteAt_pack_in (d : Int) (off : Nat) (b : Buf) (k : Nat)
    (h : off ≤ k ∧ k < off + 4) :
    (pack d off b).byteAt k = u32ofInt d / 256 ^ (k - off) % 256 := by
  show (if off ≤ k ∧ k < off + 4 then u32ofInt d / 256 ^ (k - off) % 256
    else b.byteAt k) = u32ofInt d / 256 ^ (k - off) % 256
  rw [if_pos h]

theorem readU32_pack_above (d : Int) (off : Nat) (b : Buf) (o : Nat)
    (h : o + 4 ≤ off) : readU32 (pack d off b) o = readU32 b o := by
  unfold readU32
  rw [byteAt_pack_out d off b o (by omega), byteAt_pack_out d off b (o + 1) (by omega),
    byteAt_pack_out d off b (o + 2) (by omega), byteAt_pack_out d off b (o + 3) (by omega)]

theorem u32ofInt_lt (d : Int) : u32ofInt d < 4294967296 := by
  unfold u32ofInt; omega

theorem readU32_pack_here (d : Int) (off : Nat) (b : Buf) :
    readU32 (pack d off b) off = u32ofInt d := by
  unfold readU32
  rw [byteAt_pack_in d off b off (by omega), byteAt_pack_in d off b (off + 1) (by omega),
    byteAt_pack_in d off b (off + 2) (by omega), byteAt_pack_in d off b (off + 3) (by omega),
    show off - off = 0 from by omega, show off + 1 - off = 1 from by omega,
    show off + 2 - off = 2 from by omega, show off + 3 - off = 3 from by omega]
  have h4 := u32ofInt_lt d
  generalize u32ofInt d = A at h4 ⊢
  norm_num
  omega

theorem readI32_pack_above (d : Int) (off : Nat) (b : Buf) (o : Nat)
    (h : o + 4 ≤ off) : readI32 (pack d off b) o = readI32 b o := by
  unfold readI32
  rw [readU32_pack_above d off b o h]

theorem i32ofU32_u32ofInt (d : Int) (h1 : -2147483648 ≤ d) (h2 : d < 2147483648) :
    i32ofU32 (u32ofInt d) = d := by
  unfold i32ofU32 u32ofInt
  split <;> omega

theorem readI32_pack_here (d : Int) (off : Nat) (b : Buf)
    (h1 : -2147483648 ≤ d) (h2 : d < 2147483648) :
    readI32 (pack d off b) off = d := by
  unfold readI32
  rw [readU32_pack_here]
  exact i32ofU32_u32ofInt d h1 h2

theorem zeroOutside_new (n e : Nat) : zeroOutside (bufNew n) e := fun _ _ => rfl

theorem zeroOutside_pack (d : Int) (off e : Nat) (b : Buf)
    (ho : off + 4 ≤ e) (hb : zeroOutside b e) : zeroOutside (pack d off b) e := by
  intro k hk
  rw [byteAt_pack_out d off b k (by omega)]
  exact hb k hk

/-- Claim C2: for every sequence, the finalization frame depends on the
partition's `binary_type`: when `binary_type == 1` (modem) the 1024-byte
frame carries `0x66` at offset 0, `0x03` at offset 4, then `0x01`,
`real_size`, `binary_type`, `device_type`, `last?1:0` at offsets 8, 12, 16,
20, 24; when `binary_type ≠ 1` (regular) it carries `0x00`, `real_size`,
`binary_type`, `device_type`, `partition_id`, `last?1:0`, `efs_clear?1:0`,
`update_bootloader?1:0` at offsets 8, 12, 16, 20, 24, 28, 32, 36. -/
theorem finalizeFrame_fields (e : PitEntry) (rs : Int) (l ef ub : Bool)
    (hrs : i32range rs) (hbt : i32range e.binaryType)
    (hdt : i32range e.deviceType) (hpid : i32range e.partitionID) :
    (e.binaryType = 1 →
      (finalizeFrame e rs l ef ub).size = 1024 ∧
      readU32 (finalizeFrame e rs l ef ub) 0 = 0x66 ∧
      readU32 (finalizeFrame e rs l ef ub) 4 = 0x03 ∧
      readU32 (finalizeFrame e rs l ef ub) 8 = 0x01 ∧
      readI32 (finalizeFrame e rs l ef ub) 12 = rs ∧
      readI32 (finalizeFrame e rs l ef ub) 16 = e.binaryType ∧
      readI32 (finalizeFrame e rs l ef ub) 20 = e.deviceType ∧
      readU32 (finalizeFrame e rs l ef ub) 24 = (if l then 1 else 0)) ∧
    (e.binaryType ≠ 1 →
      (finalizeFrame e rs l ef ub).size = 1024 ∧
      readU32 (finalizeFrame e rs l ef ub) 0 = 0x66 ∧
      readU32 (finalizeFrame e rs l ef ub) 4 = 0x03 ∧
      readU32 (finalizeFrame e rs l ef ub) 8 = 0x00 ∧
      readI32 (finalizeFrame e rs l ef ub) 12 = rs ∧
      readI32 (finalizeFrame e rs l ef ub) 16 = e.binaryType ∧
      readI32 (finalizeFrame e rs l ef ub) 20 = e.deviceType ∧
      readI32 (finalizeFrame e rs l ef ub) 24 = e.partitionID ∧
      readU32 (finalizeFrame e rs l ef ub) 28 = (if l then 1 else 0) ∧
      readU32 (finalizeFrame e rs l ef ub) 32 = (if ef then 1 else 0) ∧
      readU32 (finalizeFrame e rs l ef ub) 36 = (if ub then 1 else 0)) := by
  obtain ⟨hrs1, hrs2⟩ := hrs
  obtain ⟨hbt1, hbt2⟩ := hbt
  obtain ⟨hdt1, hdt2⟩ := hdt
  obtain ⟨hpid1, hpid2⟩ := hpid
  constructor
  · intro h
    have hF : finalizeFrame e rs l ef ub =
        pack (if l then 1 else 0) 24 (pack e.deviceType 20 (pack e.binaryType 16
          (pack rs 12 (pack 0x01 8 (pack 0x03 4 (pack 0x66 0 (bufNew 1024))))))) := by
      unfold finalizeFrame
      rw [if_pos h]
    refine ⟨by rw [hF]; rfl, ?_, ?_, ?_, ?_, ?_, ?_, ?_⟩
    · rw [hF, readU32_pack_above _ 24 _ 0 (by omega), readU32_pack_above _ 20 _ 0 (by omega),
        readU32_pack_above _ 16 _ 0 (by omega), readU32_pack_above _ 12 _ 0 (by omega),
        readU32_pack_above _ 8 _ 0 (by omega), readU32_pack_above _ 4 _ 0 (by omega),
        readU32_pack_here]
      decide
    · rw [hF, readU32_pack_above _ 24 _ 4 (by omega), readU32_pack_above _ 20 _ 4 (by omega),
        readU32_pack_above _ 16 _ 4 (by omega), readU32_pack_above _ 12 _ 4 (by omega),
        readU32_pack_above _ 8 _ 4 (by omega), readU32_pack_here]
      decide
    · rw [hF, readU32_pack_above _ 24 _ 8 (by omega), readU32_pack_above _ 20 _ 8 (by omega),
        readU32_pack_above _ 16 _ 8 (by omega), readU32_pack_above _ 12 _ 8 (by omega),
        readU32_pack_here]
      decide
    · rw [hF, readI32_pack_above _ 24 _ 12 (by omega), readI32_pack_above _ 20 _ 12 (by omega),
        readI32_pack_above _ 16 _ 12 (by omega)]
      exact readI32_pack_here rs 12 _ hrs1 hrs2
    · rw [hF, readI32_pack_above _ 24 _ 16 (by omega), readI32_pack_above _ 20 _ 16 (by omega)]
      exact readI32_pack_here e.binaryType 16 _ hbt1 hbt2
    · rw [hF, readI32_pack_above _ 24 _ 20 (by omega)]
      exact readI32_pack_here e.deviceType 20 _ hdt1 hdt2
    · rw [hF, readU32_pack_here]
      cases l <;> decide
  · intro h
    have hF : finalizeFrame e rs l ef ub =
        pack (if ub then 1 else 0) 36 (pack (if ef then 1 else 0) 32
          (pack (if l then 1 else 0) 28 (pack e.partitionID 24 (pack e.deviceType 20
            (pack e.binaryType 16 (pack rs 12 (pack 0x00 8 (pack 0x03 4
              (pack 0x66 0 (bufNew 1024)))))))))) := by
      unfold finalizeFrame
      rw [if_neg h]
    refine ⟨by rw [hF]; rfl, ?_, ?_, ?_, ?_, ?_, ?_, ?_, ?_, ?_, ?_⟩
    · rw [hF, readU32_pack_above _ 36 _ 0 (by omega), readU32_pack_above _ 32 _ 0 (by omega),
        readU32_pack_above _ 28 _ 0 (by omega), readU32_pack_above _ 24 _ 0 (by omega),
        readU32_pack_above _ 20 _ 0 (by omega), readU32_pack_above _ 16 _ 0 (by omega),
        readU32_pack_above _ 12 _ 0 (by omega), readU32_pack_above _ 8 _ 0 (by omega),
        readU32_pack_above _ 4 _ 0 (by omega), readU32_pack_here]
      decide
    · rw [hF, readU32_pack_above _ 36 _ 4 (by omega), readU32_pack_above _ 32 _ 4 (by omega),
        readU32_pack_above _ 28 _ 4 (by omega), readU32_pack_above _ 24 _ 4 (by omega),
        readU32_pack_above _ 20 _ 4 (by omega), readU32_pack_above _ 16 _ 4 (by omega),
        readU32_pack_above _ 12 _ 4 (by omega), readU32_pack_above _ 8 _ 4 (by omega),
        readU32_pack_here]
      decide
    · rw [hF, readU32_pack_above _ 36 _ 8 (by omega), readU32_pack_above _ 32 _ 8 (by omega),
        readU32_pack_above _ 28 _ 8 (by omega), readU32_pack_above _ 24 _ 8 (by omega),
        readU32_pack_above _ 20 _ 8 (by omega), readU32_pack_above _ 16 _ 8 (by omega),
        readU32_pack_above _ 12 _ 8 (by omega), readU32_pack_here]
      decide
    · rw [hF, readI32_pack_above _ 36 _ 12 (by omega), readI32_pack_above _ 32 _ 12 (by omega),
        readI32_pack_above _ 28 _ 12 (by omega), readI32_pack_above _ 24 _ 12 (by omega),
        readI32_pack_above _ 20 _ 12 (by omega), readI32_pack_above _ 16 _ 12 (by omega)]
      exact readI32_pack_here rs 12 _ hrs1 hrs2
    · rw [hF, readI32_pack_above _ 36 _ 16 (by omega), readI32_pack_above _ 32 _ 16 (by omega),
        readI32_pack_above _ 28 _ 16 (by omega), readI32_pack_above _ 24 _ 16 (by omega),
        readI32_pack_above _ 20 _ 16 (by omega)]
      exact readI32_pack_here e.binaryType 16 _ hbt1 hbt2
    · rw [hF, readI32_pack_above _ 36 _ 20 (by omega), readI32_pack_above _ 32 _ 20 (by omega),
        readI32_pack_above _ 28 _ 20 (by omega), readI32_pack_above _ 24 _ 20 (by omega)]
      exact readI32_pack_here e.deviceType 20 _ hdt1 hdt2
    · rw [hF, readI32_pack_above _ 36 _ 24 (by omega), readI32_pack_above _ 32 _ 24 (by omega),
        readI32_pack_above _ 28 _ 24 (by omega)]
      exact readI32_pack_here e.partitionID 24 _ hpid1 hpid2
    · rw [hF, readU32_pack_above _ 36 _ 28 (by omega), readU32_pack_above _ 32 _ 28 (by omega),
        readU32_pack_here]
      cases l <;> decide
    · rw [hF, readU32_pack_above _ 36 _ 32 (by omega), readU32_pack_here]
      cases ef <;> decide
    · rw [hF, readU32_pack_here]
      cases ub <;> decide

/-- Claim C2 witness: the regular/modem field equations evaluated on a
concrete modem entry. -/
theorem finalizeFrame_fields_app :
    readI32 (finalizeFrame ⟨1, 2, 3, 0, 0, 0, 0, 0, 0, [], [], []⟩ 5 true false false) 12 = 5 ∧
    readU32 (finalizeFrame ⟨1, 2, 3, 0, 0, 0, 0, 0, 0, [], [], []⟩ 5 true false false) 8 = 1 := by
  have h := finalizeFrame_fields ⟨1, 2, 3, 0, 0, 0, 0, 0, 0, [], [], []⟩ 5 true false false
    (by constructor <;> decide) (by constructor <;> decide) (by constructor <;> decide)
    (by constructor <;> decide)
  exact ⟨(h.1 rfl).2.2.2.2.1, (h.1 rfl).2.2.2.1⟩

/-- Claim C3: every outbound command frame written by any operation
(version probe, packet-size announcement, total-bytes, PIT init/block/end,
flash begin, sequence header, finalization, end-session, reboot, shutdown,
factory reset, T-Flash enable) is exactly 1024 bytes and zero outside the
explicitly packed offsets; the only exceptions are the 4-byte `"ODIN"`
literal and the raw image packets of `flashpacketsize` bytes. -/
theorem frames_1024_zero_padded :
    frameOk probeFrame 12 ∧
    (∀ fps : Int, frameOk (packetSizeFrame fps) 12) ∧
    (∀ sz : Int, frameOk (totalBytesFrame sz) 12) ∧
    frameOk pitInitFrame 8 ∧
    (∀ i : Int, frameOk (pitBlockFrame i) 12) ∧
    frameOk pitEndFrame 8 ∧
    frameOk flashBeginFrame 8 ∧
    (∀ a : Int, frameOk (seqHeaderFrame a) 12) ∧
    (∀ (e : PitEntry) (rs : Int) (l ef ub : Bool),
      (finalizeFrame e rs l ef ub).size = 1024 ∧
      (e.binaryType = 1 → zeroOutside (finalizeFrame e rs l ef ub) 28) ∧
      (e.binaryType ≠ 1 → zeroOutside (finalizeFrame e rs l ef ub) 40)) ∧
    frameOk endSessionFrame 8 ∧
    frameOk rebootFrame 8 ∧
    frameOk shutdownFrame 8 ∧
    frameOk factoryResetFrame 8 ∧
    frameOk tflashFrame 8 ∧
    odinBytes.length = 4 ∧
    (∀ (fps : Nat) (chunk : List Nat), (imagePacket fps chunk).size = fps) := by
  refine ⟨⟨rfl, ?_⟩, fun fps => ⟨rfl, ?_⟩, fun sz => ⟨rfl, ?_⟩, ⟨rfl, ?_⟩,
    fun i => ⟨rfl, ?_⟩, ⟨rfl, ?_⟩, ⟨rfl, ?_⟩, fun a => ⟨rfl, ?_⟩,
    fun e rs l ef ub => ⟨?_, ?_, ?_⟩, ⟨rfl, ?_⟩, ⟨rfl, ?_⟩, ⟨rfl, ?_⟩, ⟨rfl, ?_⟩, ⟨rfl, ?_⟩,
    rfl, fun fps chunk => rfl⟩
  · exact zeroOutside_pack _ 8 12 _ (by omega) (zeroOutside_pack _ 4 12 _ (by omega)
      (zeroOutside_pack _ 0 12 _ (by omega) (zeroOutside_new 1024 12)))
  · exact zeroOutside_pack _ 8 12 _ (by omega) (zeroOutside_pack _ 4 12 _ (by omega)
      (zeroOutside_pack _ 0 12 _ (by omega) (zeroOutside_new 1024 12)))
  · exact zeroOutside_pack _ 8 12 _ (by omega) (zeroOutside_pack _ 4 12 _ (by omega)
      (zeroOutside_pack _ 0 12 _ (by omega) (zeroOutside_new 1024 12)))
  · exact zeroOutside_pack _ 4 8 _ (by omega)
      (zeroOutside_pack _ 0 8 _ (by omega) (zeroOutside_new 1024 8))
  · exact zeroOutside_pack _ 8 12 _ (by omega) (zeroOutside_pack _ 4 12 _ (by omega)
      (zeroOutside_pack _ 0 12 _ (by omega) (zeroOutside_new 1024 12)))
  · exact zeroOutside_pack _ 4 8 _ (by omega)
      (zeroOutside_pack _ 0 8 _ (by omega) (zeroOutside_new 1024 8))
  · exact zeroOutside_pack _ 4 8 _ (by omega)
      (zeroOutside_pack _ 0 8 _ (by omega) (zeroOutside_new 1024 8))
  · exact zeroOutside_pack _ 8 12 _ (by omega) (zeroOutside_pack _ 4 12 _ (by omega)
      (zeroOutside_pack _ 0 12 _ (by omega) (zeroOutside_new 1024 12)))
  · unfold finalizeFrame
    split <;> rfl
  · intro h
    unfold finalizeFrame
    rw [if_pos h]
    exact zeroOutside_pack _ 24 28 _ (by omega) (zeroOutside_pack _ 20 28 _ (by omega)
      (zeroOutside_pack _ 16 28 _ (by omega) (zeroOutside_pack _ 12 28 _ (by omega)
        (zeroOutside_pack _ 8 28 _ (by omega) (zeroOutside_pack _ 4 28 _ (by omega)
          (zeroOutside_pack _ 0 28 _ (by omega) (zeroOutside_new 1024 28)))))))
  · intro h
    unfold finalizeFrame
    rw [if_neg h]
    exact zeroOutside_pack _ 36 40 _ (by omega) (zeroOutside_pack _ 32 40 _ (by omega)
      (zeroOutside_pack _ 28 40 _ (by omega) (zeroOutside_pack _ 24 40 _ (by omega)
        (zeroOutside_pack _ 20 40 _ (by omega) (zeroOutside_pack _ 16 40 _ (by omega)
          (zeroOutside_pack _ 12 40 _ (by omega) (zeroOutside_pack _ 8 40 _ (by omega)
            (zeroOutside_pack _ 4 40 _ (by omega)
              (zeroOutside_pack _ 0 40 _ (by omega) (zeroOutside_new 1024 40))))))))))
  · exact zeroOutside_pack _ 4 8 _ (by omega)
      (zeroOutside_pack _ 0 8 _ (by omega) (zeroOutside_new 1024 8))
  · exact zeroOutside_pack _ 4 8 _ (by omega)
      (zeroOutside_pack _ 0 8 _ (by omega) (zeroOutside_new 1024 8))
  · exact zeroOutside_pack _ 4 8 _ (by omega)
      (zeroOutside_pack _ 0 8 _ (by omega) (zeroOutside_new 1024 8))
  · exact zeroOutside_pack _ 4 8 _ (by omega)
      (zeroOutside_pack _ 0 8 _ (by omega) (zeroOutside_new 1024 8))
  · exact zeroOutside_pack _ 4 8 _ (by omega)
      (zeroOutside_pack _ 0 8 _ (by omega) (zeroOutside_new 1024 8))

/-- Claim C3 witness: concrete padding bytes and sizes obtained from the
frame theorem. -/
theorem frames_1024_zero_padded_app :
    probeFrame.byteAt 100 = 0 ∧
    (pitBlockFrame 7).byteAt 700 = 0 ∧
    (finalizeFrame ⟨0, 0, 0, 0, 0, 0, 0, 0, 0, [], [], []⟩ 5 true false false).byteAt 45 = 0 ∧
    (imagePacket 131072 []).size = 131072 := by
  refine ⟨frames_1024_zero_padded.1.2 100 (by omega), ?_, ?_, ?_⟩
  · exact (frames_1024_zero_padded.2.2.2.2.1 7).2 700 (by omega)
  · exact (frames_1024_zero_padded.2.2.2.2.2.2.2.2.1
      ⟨0, 0, 0, 0, 0, 0, 0, 0, 0, [], [], []⟩ 5 true false false).2.2 (by decide) 45 (by omega)
  · exact frames_1024_zero_padded.2.2.2.2.2.2.2.2.2.2.2.2.2.2.2 131072 []

/-- Claim C1 (the code crashes instead): on a two-sequence image the first
loop iteration reads the local `last` before any assignment
(`UnboundLocalError`, modelled as `none`); a single-sequence image still
works. With `flash_packet_size = 1048576` and `sequence_size = 30` one
sequence holds 31457280 bytes, so `L = 33554432` needs two sequences. -/
theorem flashPlanCode_unbound_last :
    flashPlanCode 33554432 1048576 30 = none ∧
    flashPlanCode 2097152 1048576 30 = some [(2097152, true)] := ⟨rfl, rfl⟩

/-- Claim C5: for every sequence with `real_size > 0` and
`flash_packet_size > 0`, the computed `aligned_size` is a positive multiple
of `flash_packet_size`, satisfies `0 ≤ aligned_size - real_size <
flash_packet_size`, and equals `real_size` when already aligned. -/
theorem alignedSize_props (rs fps : Nat) (h1 : 0 < rs) (h2 : 0 < fps) :
    alignedSize rs fps % fps = 0 ∧ 0 < alignedSize rs fps ∧
    rs ≤ alignedSize rs fps ∧ alignedSize rs fps - rs < fps ∧
    (rs % fps = 0 → alignedSize rs fps = rs) := by
  by_cases h : rs % fps = 0
  · have ha : alignedSize rs fps = rs := by
      unfold alignedSize
      rw [if_neg (not_not.mpr h)]
    refine ⟨by rw [ha]; exact h, by rw [ha]; exact h1, by rw [ha],
      by rw [ha, Nat.sub_self]; exact h2, fun _ => ha⟩
  · have hm : rs % fps < fps := Nat.mod_lt rs h2
    have ha : alignedSize rs fps = rs + (fps - rs % fps) := by
      unfold alignedSize
      rw [if_pos h]
    have key : rs + (fps - rs % fps) = fps * (rs / fps + 1) := by
      nth_rewrite 1 [← Nat.div_add_mod rs fps]
      rw [Nat.add_assoc, Nat.add_sub_cancel' (Nat.le_of_lt hm), Nat.mul_add, Nat.mul_one]
    refine ⟨?_, ?_, ?_, ?_, fun hc => absurd hc h⟩
    · rw [ha, key]
      exact Nat.mul_mod_right fps (rs / fps + 1)
    · rw [ha]
      exact Nat.lt_of_lt_of_le h1 (Nat.le_add_right rs _)
    · rw [ha]
      exact Nat.le_add_right rs _
    · rw [ha, Nat.add_sub_cancel_left]
      exact Nat.sub_lt h2 (Nat.pos_of_ne_zero h)

/-- Claim C5 witness: spec scenario S5, `real_size = 1048577` against
`flash_packet_size = 1048576`. -/
theorem alignedSize_props_app :
    alignedSize 1048577 1048576 % 1048576 = 0 ∧ 0 < alignedSize 1048577 1048576 ∧
    1048577 ≤ alignedSize 1048577 1048576 ∧
    alignedSize 1048577 1048576 - 1048577 < 1048576 ∧
    (1048577 % 1048576 = 0 → alignedSize 1048577 1048576 = 1048577) :=
  alignedSize_props 1048577 1048576 (by omega) (by omega)

/-- Claim C6: every call to `write` or `read` while `session_started` is
false raises `NoSession`, transfers nothing, and leaves the session state
unchanged. -/
theorem gate_noSession (s : Sess) (data : List Nat) (r : RdRes)
    (h : s.session_started = false) :
    writeOp s data = (s, [], .error .noSession) ∧
    readOp s r = (s, .error .noSession) := by
  constructor
  · simp [writeOp, h]
  · simp [readOp, h]

/-- Claim C6 witness: a connected but session-less state. -/
theorem gate_noSession_app :
    writeOp ⟨true, false, false, 0, 0, []⟩ [1, 2] =
      (⟨true, false, false, 0, 0, []⟩, [], .error .noSession) ∧
    readOp ⟨true, false, false, 0, 0, []⟩ (RdRes.bytes [9]) =
      (⟨true, false, false, 0, 0, []⟩, .error .noSession) :=
  gate_noSession ⟨true, false, false, 0, 0, []⟩ [1, 2] (RdRes.bytes [9]) rfl

theorem end_session_fst (s : Sess) (env : Nat → RdRes) : (end_session s env).1 = s := by
  unfold end_session
  split
  · cases env 0 <;> rfl
  · rfl

theorem reboot_ok (s : Sess) (env : Nat → RdRes) (s' : Sess) (u : Unit)
    (h : reboot s env = (s', .ok u)) :
    s' = { s with dev := false, partitions := [] } ∧
      s.dev = true ∧ s.session_started = true := by
  unfold reboot at h
  split at h
  · simp at h
  · rename_i s1 a heq
    have hs1 : s1 = s := by
      have h0 := end_session_fst s env
      rw [heq] at h0
      exact h0
    subst hs1
    split at h
    · rename_i hg
      split at h
      · simp at h
      · injection h with h2 h3
        rw [Bool.and_eq_true] at hg
        exact ⟨h2.symm, hg.1, hg.2⟩
    · simp at h

theorem shutdown_ok (s : Sess) (env : Nat → RdRes) (s' : Sess) (u : Unit)
    (h : shutdown s env = (s', .ok u)) :
    s' = { s with dev := false, partitions := [] } ∧
      s.dev = true ∧ s.session_started = true := by
  unfold shutdown at h
  by_cases hg : (s.dev && s.session_started) = true
  · rw [if_pos hg] at h
    cases hv : env 0 with
    | timeout => rw [hv] at h; simp at h
    | bytes bs =>
      rw [hv] at h
      injection h with h2 h3
      rw [Bool.and_eq_true] at hg
      exact ⟨h2.symm, hg.1, hg.2⟩
  · rw [if_neg hg] at h
    simp at h

/-- Claim C9: `write`/`read` raise `NoSession` whenever the handle is
unset, even with `session_started = true`; `reboot` and `shutdown` clear
the handle while leaving `session_started` true, so afterwards every I/O
operation — `end_session` included — fails with `NoSession`. -/
theorem noSession_when_handle_unset :
    (∀ (s : Sess) (data : List Nat), s.dev = false →
      writeOp s data = (s, [], .error .noSession)) ∧
    (∀ (s : Sess) (r : RdRes), s.dev = false →
      readOp s r = (s, .error .noSession)) ∧
    (∀ (s : Sess) (env : Nat → RdRes) (s' : Sess), reboot s env = (s', .ok ()) →
      s'.dev = false ∧ s'.session_started = true ∧
      (∀ env2, (end_session s' env2).2 = .error .noSession) ∧
      (∀ data, writeOp s' data = (s', [], .error .noSession)) ∧
      (∀ r, readOp s' r = (s', .error .noSession)) ∧
      (∀ env3, (get_pit s' env3).2 = .error .noSession)) ∧
    (∀ (s : Sess) (env : Nat → RdRes) (s' : Sess), shutdown s env = (s', .ok ()) →
      s'.dev = false ∧ s'.session_started = true ∧
      (∀ env2, (end_session s' env2).2 = .error .noSession)) := by
  have hw : ∀ (s : Sess) (data : List Nat), s.dev = false →
      writeOp s data = (s, [], .error .noSession) := by
    intro s data h
    simp [writeOp, h]
  have hr : ∀ (s : Sess) (r : RdRes), s.dev = false →
      readOp s r = (s, .error .noSession) := by
    intro s r h
    simp [readOp, h]
  have he : ∀ (s : Sess) (env2 : Nat → RdRes), s.dev = false →
      (end_session s env2).2 = .error .noSession := by
    intro s env2 h
    simp [end_session, h]
  have hgp : ∀ (s : Sess) (env3 : Nat → RdRes), s.dev = false →
      (get_pit s env3).2 = .error .noSession := by
    intro s env3 h
    simp [get_pit, h]
  refine ⟨hw, hr, ?_, ?_⟩
  · intro s env s' h
    obtain ⟨hs', hdev, hst⟩ := reboot_ok s env s' () h
    subst hs'
    exact ⟨rfl, hst, fun env2 => he _ env2 rfl, fun data => hw _ data rfl,
      fun r => hr _ r rfl, fun env3 => hgp _ env3 rfl⟩
  · intro s env s' h
    obtain ⟨hs', hdev, hst⟩ := shutdown_ok s env s' () h
    subst hs'
    exact ⟨rfl, hst, fun env2 => he _ env2 rfl⟩

/-- Claim C9 witness: a successful reboot from a started session, after
which `end_session` fails with `NoSession`. -/
theorem noSession_when_handle_unset_app :
    (⟨false, true, false, 0, 0, []⟩ : Sess).dev = false ∧
    (⟨false, true, false, 0, 0, []⟩ : Sess).session_started = true ∧
    (end_session ⟨false, true, false, 0, 0, []⟩ (fun _ => RdRes.bytes [])).2 =
      .error .noSession := by
  have h := noSession_when_handle_unset.2.2.1 ⟨true, true, false, 0, 0, []⟩
    (fun _ => RdRes.bytes []) ⟨false, true, false, 0, 0, []⟩ rfl
  exact ⟨h.1, h.2.1, h.2.2.1 (fun _ => RdRes.bytes [])⟩

theorem beginSessionTail_trace_head (s : Sess) (x : List Nat) (tr : List (List Nat))
    (n : Nat) (env : Nat → RdRes) :
    (beginSessionTail s (x :: tr) n env).2.1.head? = some x := by
  unfold beginSessionTail
  repeat' split
  all_goals rfl

/-- Claim C4 counterexample: with the handle present, `session_started`
initially false, and the device replying `"XXXX"` to the handshake,
`begin_session(resume = false)` fails with `HandshakeMismatch` but leaves
`session_started = true` — the flag is not rolled back on this branch. -/
theorem beginSession_mismatch_keeps_flag :
    (begin_session ⟨true, false, false, 0, 0, []⟩ false
      (fun _ => RdRes.bytes [88, 88, 88, 88])).2.2 = .error .handshakeMismatch ∧
    (begin_session ⟨true, false, false, 0, 0, []⟩ false
      (fun _ => RdRes.bytes [88, 88, 88, 88])).1.session_started = true := ⟨rfl, rfl⟩

/-- Claim C4 (amended): `begin_session` enables the session gate before the
`"ODIN"` write (the write is emitted even from an unstarted session), and
on handshake read timeout (`SessionStartError`) rolls `session_started`
back to false; but on a `HandshakeMismatch` reply the flag stays true. -/
theorem beginSession_gate_and_rollback (s : Sess) (env : Nat → RdRes)
    (hdev : s.dev = true) :
    (begin_session s false env).2.1.head? = some odinBytes ∧
    (env 0 = RdRes.timeout →
      begin_session s false env =
        ({ s with session_started := false }, [odinBytes], .error .sessionStart)) ∧
    (∀ bs cs, env 0 = RdRes.bytes bs → utf8Decode bs = some cs → cs ≠ lokeChars →
      begin_session s false env =
        ({ s with session_started := true }, [odinBytes], .error .handshakeMismatch)) := by
  have hgate : ((({ s with session_started := true } : Sess)).dev &&
      (({ s with session_started := true } : Sess)).session_started) = true := by
    simp [hdev]
  refine ⟨?_, ?_, ?_⟩
  · unfold begin_session
    rw [if_neg Bool.false_ne_true, if_pos hgate]
    split
    · rfl
    · split
      · rfl
      · split
        · exact beginSessionTail_trace_head _ odinBytes [] 1 env
        · rfl
  · intro h0
    unfold begin_session
    rw [if_neg Bool.false_ne_true, if_pos hgate]
    split
    · rfl
    · rename_i ret henv
      rw [h0] at henv
      exact RdRes.noConfusion henv
  · intro bs cs h0 hdec hne
    unfold begin_session
    rw [if_neg Bool.false_ne_true, if_pos hgate]
    split
    · rename_i henv
      rw [h0] at henv
      exact RdRes.noConfusion henv
    · rename_i ret henv
      rw [h0] at henv
      injection henv with hret
      subst hret
      split
      · rename_i hdn
        rw [hdec] at hdn
        exact Option.noConfusion hdn
      · rename_i cs2 hds
        rw [hdec] at hds
        injection hds with hcs2
        subst hcs2
        rw [if_neg hne]

/-- Claim C4 witness: the timeout branch on a concrete state. -/
theorem beginSession_gate_and_rollback_app :
    begin_session ⟨true, true, false, 0, 0, []⟩ false (fun _ => RdRes.timeout) =
      (⟨true, false, false, 0, 0, []⟩, [odinBytes], .error .sessionStart) :=
  (beginSession_gate_and_rollback ⟨true, true, false, 0, 0, []⟩
    (fun _ => RdRes.timeout) rfl).2.1 rfl

theorem dropWhile_head?_not (p : Char → Bool) :
    ∀ (l : List Char) (c : Char), (l.dropWhile p).head? = some c → p c = false := by
  intro l
  induction l with
  | nil =>
    intro c h
    simp at h
  | cons a t ih =>
    intro c h
    rw [List.dropWhile_cons] at h
    cases hpa : p a
    · rw [hpa, if_neg Bool.false_ne_true] at h
      simp only [List.head?_cons, Option.some.injEq] at h
      subst h
      exact hpa
    · rw [hpa, if_pos rfl] at h
      exact ih c h

theorem dropWhile_getLast? (p : Char → Bool) :
    ∀ l : List Char, l.dropWhile p = [] ∨ (l.dropWhile p).getLast? = l.getLast? := by
  intro l
  induction l with
  | nil => exact Or.inl rfl
  | cons a t ih =>
    rw [List.dropWhile_cons]
    cases hpa : p a
    · rw [if_neg Bool.false_ne_true]
      exact Or.inr rfl
    · rw [if_pos rfl]
      cases t with
      | nil => exact Or.inl rfl
      | cons b t' =>
        rcases ih with h | h
        · exact Or.inl h
        · right
          rw [h]
          exact List.getLast?_cons_cons.symm

theorem stripEnds_head?_not (p : Char → Bool) (l : List Char) (c : Char)
    (h : (stripEnds p l).head? = some c) : p c = false := by
  unfold stripEnds at h
  rw [List.head?_reverse] at h
  rcases dropWhile_getLast? p (l.dropWhile p).reverse with he | he
  · rw [he] at h
    simp at h
  · rw [he, List.getLast?_reverse] at h
    exact dropWhile_head?_not p l c h

theorem stripEnds_getLast?_not (p : Char → Bool) (l : List Char) (c : Char)
    (h : (stripEnds p l).getLast? = some c) : p c = false := by
  unfold stripEnds at h
  rw [List.getLast?_reverse] at h
  exact dropWhile_head?_not p (l.dropWhile p).reverse c h

/-- Claim C8 counterexample: the 32-byte field `b"\x00\x20AAA…"` decodes and
trims to a string whose first character is a space — the strip order
(whitespace, then space, then NUL) uncovers the space only after the NUL
strip, so the claimed absence of leading/trailing spaces fails. -/
theorem fieldString_leading_space_cex :
    fieldString (0 :: 32 :: List.replicate 30 65) = some (' ' :: List.replicate 30 'A') ∧
    (' ' :: List.replicate 30 'A').head? = some ' ' := ⟨by decide, rfl⟩

/-- Claim C8 (amended): every decoded-and-trimmed PIT string field has no
leading and no trailing NUL character; leading/trailing spaces can survive
(when shielded by a NUL), so only the NUL half of the original claim
holds. -/
theorem fieldString_no_nul_ends (bs : List Nat) (cs : List Char)
    (h : fieldString bs = some cs) :
    cs.head? ≠ some nulChar ∧ cs.getLast? ≠ some nulChar := by
  unfold fieldString at h
  rw [Option.map_eq_some'] at h
  obtain ⟨ds, hds, hcs⟩ := h
  subst hcs
  constructor
  · intro hc
    unfold trimField at hc
    exact absurd (stripEnds_head?_not isNulChar _ nulChar hc) (by decide)
  · intro hc
    unfold trimField at hc
    exact absurd (stripEnds_getLast?_not isNulChar _ nulChar hc) (by decide)

/-- Claim C8 witness: trimming `b"BOOT"` leaves no NUL at either end. -/
theorem fieldString_no_nul_ends_app :
    (['B', 'O', 'O', 'T'] : List Char).head? ≠ some nulChar ∧
    (['B', 'O', 'O', 'T'] : List Char).getLast? ≠ some nulChar :=
  fieldString_no_nul_ends [66, 79, 79, 84] ['B', 'O', 'O', 'T'] (by decide)

theorem lookupP_dictInsert_isSome (m : PMap) (k k0 : List Char) (v0 : PitEntry)
    (h : (lookupP m k).isSome = true) :
    (lookupP (dictInsert m k0 v0) k).isSome = true := by
  induction m with
  | nil => simp [lookupP] at h
  | cons kv t ih =>
    obtain ⟨k', v'⟩ := kv
    unfold dictInsert
    by_cases h1 : k' = k0
    · rw [if_pos h1]
      unfold lookupP
      by_cases h2 : k0 = k
      · rw [if_pos h2]
        rfl
      · rw [if_neg h2]
        unfold lookupP at h
        rw [if_neg (by rw [h1]; exact h2)] at h
        exact h
    · rw [if_neg h1]
      unfold lookupP
      unfold lookupP at h
      by_cases h2 : k' = k
      · rw [if_pos h2]
        rfl
      · rw [if_neg h2] at h ⊢
        exact ih h

theorem parsePitLoop_mono (n : Nat) :
    ∀ (bs : List Nat) (ps : PMap) (k : List Char),
      (lookupP ps k).isSome = true →
      (lookupP (parsePitLoop n bs ps).1 k).isSome = true := by
  induction n with
  | zero => intro bs ps k h; exact h
  | succ m ih =>
    intro bs ps k h
    unfold parsePitLoop
    cases hpe : parseEntry bs with
    | none => exact h
    | some ev =>
      obtain ⟨e, rest⟩ := ev
      exact ih rest (dictInsert ps e.partitionName e) k
        (lookupP_dictInsert_isSome ps k e.partitionName e h)

theorem parsePitLoop_ne_magic (n : Nat) :
    ∀ (bs : List Nat) (ps : PMap),
      (parsePitLoop n bs ps).2 ≠ some Err.magicMismatch := by
  induction n with
  | zero =>
    intro bs ps h
    exact Option.noConfusion h
  | succ m ih =>
    intro bs ps
    unfold parsePitLoop
    cases hpe : parseEntry bs with
    | none =>
      intro h
      injection h with h2
      exact Err.noConfusion h2
    | some ev =>
      obtain ⟨e, rest⟩ := ev
      exact ih rest (dictInsert ps e.partitionName e)

theorem pitHeader_magic (pit : List Nat) (h4 : 4 ≤ pit.length) :
    pitHeader pit = .error .magicMismatch ↔ u32LE (pit.take 4) ≠ 0x12349876 := by
  unfold pitHeader
  rw [if_neg (by omega)]
  by_cases hm : u32LE (pit.take 4) ≠ 0x12349876
  · rw [if_pos hm]
    simp [hm]
  · rw [if_neg hm]
    constructor
    · intro h
      exfalso
      dsimp only at h
      split at h
      · simp at h
      · split at h
        · simp at h
        · split at h
          · simp at h
          · split at h
            · simp at h
            · simp at h
    · intro h
      exact absurd h hm

theorem pitHeader_ok_magic (pit : List Nat) (x : Nat × List Nat)
    (h : pitHeader pit = .ok x) : u32LE (pit.take 4) = 0x12349876 := by
  unfold pitHeader at h
  by_cases h1 : pit.length < 4
  · rw [if_pos h1] at h
    simp at h
  · rw [if_neg h1] at h
    by_cases hm : u32LE (pit.take 4) ≠ 0x12349876
    · rw [if_pos hm] at h
      simp at h
    · rw [if_neg hm] at h
      exact not_not.mp hm

/-- Claim C7: `parse_pit` raises `MagicMismatch` if and only if the first
four bytes of the PIT buffer, decoded as a little-endian u32, are not
`0x12349876`; and when it does, the partitions mapping is unchanged. -/
theorem parse_pit_magic (ps : PMap) (pit : List Nat) (h4 : 4 ≤ pit.length) :
    ((parse_pit ps pit).2 = some Err.magicMismatch ↔
      u32LE (pit.take 4) ≠ 0x12349876) ∧
    (u32LE (pit.take 4) ≠ 0x12349876 → (parse_pit ps pit).1 = ps) := by
  unfold parse_pit
  cases hh : pitHeader pit with
  | error e =>
    have hiff := pitHeader_magic pit h4
    rw [hh] at hiff
    constructor
    · constructor
      · intro hsome
        injection hsome with h2
        exact hiff.mp (by rw [h2])
      · intro hm
        have h3 := hiff.mpr hm
        injection h3 with h2
        rw [h2]
    · intro _
      rfl
  | ok x =>
    obtain ⟨entries, body⟩ := x
    constructor
    · constructor
      · intro hsome
        exact absurd hsome (parsePitLoop_ne_magic entries body ps)
      · intro hm
        exact absurd (pitHeader_ok_magic pit _ hh) hm
    · intro hm
      exact absurd (pitHeader_ok_magic pit _ hh) hm

/-- Claim C7 witness: a four-zero-byte buffer has the wrong magic, so the
parser reports `MagicMismatch` and keeps the mapping. -/
theorem parse_pit_magic_app :
    ((parse_pit [] [0, 0, 0, 0]).2 = some Err.magicMismatch ↔
      u32LE ([0, 0, 0, 0].take 4) ≠ 0x12349876) ∧
    (u32LE ([0, 0, 0, 0].take 4) ≠ 0x12349876 → (parse_pit [] [0, 0, 0, 0]).1 = []) :=
  parse_pit_magic [] [0, 0, 0, 0] (by decide)

theorem parse_pit_mono (ps : PMap) (pit : List Nat) (k : List Char)
    (h : (lookupP ps k).isSome = true) :
    (lookupP (parse_pit ps pit).1 k).isSome = true := by
  unfold parse_pit
  cases hh : pitHeader pit with
  | error e => exact h
  | ok x =>
    obtain ⟨entries, body⟩ := x
    exact parsePitLoop_mono entries body ps k h

theorem get_pit_mono (s : Sess) (env : Nat → RdRes) (k : List Char)
    (h : (lookupP s.partitions k).isSome = true) :
    (lookupP ((get_pit s env).1).partitions k).isSome = true := by
  unfold get_pit
  split
  · split
    · exact h
    · split
      · exact h
      · dsimp only
        split
        · exact h
        · rename_i pitbuf hblocks
          split
          · exact h
          · split
            · rename_i ps2 e hpp
              have hmono := parse_pit_mono s.partitions pitbuf k h
              rw [hpp] at hmono
              exact hmono
            · rename_i ps2 hpp
              have hmono := parse_pit_mono s.partitions pitbuf k h
              rw [hpp] at hmono
              exact hmono
  · exact h

/-- Claim C10: `parse_pit` (and hence `get_pit`) only inserts or
overwrites entries, never removes one — every partition name present
beforehand is still present afterwards; the mapping is emptied by `reboot`
and `shutdown`. -/
theorem partitions_never_removed :
    (∀ (ps : PMap) (pit : List Nat) (k : List Char),
      (lookupP ps k).isSome = true → (lookupP (parse_pit ps pit).1 k).isSome = true) ∧
    (∀ (s : Sess) (env : Nat → RdRes) (k : List Char),
      (lookupP s.partitions k).isSome = true →
      (lookupP ((get_pit s env).1).partitions k).isSome = true) ∧
    (∀ (s : Sess) (env : Nat → RdRes) (s' : Sess), reboot s env = (s', .ok ()) →
      s'.partitions = []) ∧
    (∀ (s : Sess) (env : Nat → RdRes) (s' : Sess), shutdown s env = (s', .ok ()) →
      s'.partitions = []) := by
  refine ⟨parse_pit_mono, get_pit_mono, ?_, ?_⟩
  · intro s env s' h
    obtain ⟨hs', _, _⟩ := reboot_ok s env s' () h
    rw [hs']
  · intro s env s' h
    obtain ⟨hs', _, _⟩ := shutdown_ok s env s' () h
    rw [hs']

/-- Claim C10 witness: an entry named `"B"` survives a junk-PIT parse, and
a successful reboot empties the mapping. -/
theorem partitions_never_removed_app :
    (lookupP (parse_pit [(['B'], ⟨0, 0, 0, 0, 0, 0, 0, 0, 0, [], [], []⟩)] [9, 9]).1
      ['B']).isSome = true ∧
    (⟨false, true, false, 0, 0, []⟩ : Sess).partitions = [] := by
  constructor
  · exact partitions_never_removed.1 [(['B'], ⟨0, 0, 0, 0, 0, 0, 0, 0, 0, [], [], []⟩)]
      [9, 9] ['B'] rfl
  · exact partitions_never_removed.2.2.1 ⟨true, true, false, 0, 0, []⟩
      (fun _ => RdRes.bytes []) ⟨false, true, false, 0, 0, []⟩ rfl

end PyThor
